import Mathlib

/-!
# Telegram webhook handler (`api/webhook.go`)

A shallow embedding of `Handler` and `sendMessage` together with the parts of
the Go standard library they call: `encoding/json` (`Unmarshal` at type
`TelegramUpdate`, `Marshal` at type `TelegramResponse`), `io.ReadAll`,
`http.Error` and `http.Post`.

Go strings and byte slices are byte sequences.  The `encoding/json` package
reads them with `utf8.DecodeRune`, that is as a sequence of UTF-8 encoded code
points and of stray bytes that belong to no valid encoding.  `GoString` lists
exactly these units, so a valid UTF-8 string is a list of `GoChar.rune`.
-/

namespace Webhook

/-! ## Strings -/

/-- One unit of a Go string as `utf8.DecodeRune` sees it: a UTF-8 encoded code
point, or a single byte that is not part of a valid encoding. -/
inductive GoChar where
  | rune (c : Char)
  | raw (b : Fin 256)
deriving DecidableEq, Repr

/-- Go `string` and `[]byte`. -/
abbrev GoString := List GoChar

/-- Embedding of a string constant of the source. -/
def go (s : String) : GoString := s.data.map GoChar.rune

/-- The string holds valid UTF-8 only. -/
def ValidUTF8 (s : GoString) : Prop := ∀ u ∈ s, ∃ c, u = GoChar.rune c

/-- The code point `unicode.ReplacementChar`, U+FFFD. -/
def replacementChar : GoChar := GoChar.rune (Char.ofNat 0xFFFD)

/-! ## JSON values and the scanner of `encoding/json` -/

/-- A JSON value.  Numbers keep their literal, as `encoding/json` converts the
literal only when it stores it into a typed field. -/
inductive Json where
  | null
  | bool (b : Bool)
  | num (lit : List Char)
  | str (s : GoString)
  | arr (elems : List Json)
  | obj (members : List (GoString × Json))

/-- An open array or object on the parse stack (`scanner.parseState`), with
the elements or members completed so far. -/
inductive Frame where
  | arr (done : List Json)
  | objKey (done : List (GoString × Json))
  | objVal (done : List (GoString × Json)) (key : GoString)

/-- Scanner states inside a number literal (`stateNeg`, `state0`, `state1`,
`stateDot`, `stateDot0`, `stateE`, `stateESign`, `stateE0`). -/
inductive NumState where
  | neg | zero | int | dot | frac | exp | expSign | expDigits
deriving DecidableEq

/-- Scanner states inside a string literal (`stateInString`,
`stateInStringEsc`, `stateInStringEscU`..`stateInStringEscU123` with the
number of hex digits read and their value). -/
inductive StrState where
  | plain
  | esc
  | hex (k : Nat) (v : Nat)
deriving DecidableEq

/-- The step function of the scanner, as data. -/
inductive Mode where
  | beginValue (orEmpty : Bool)
  | beginString (orEmpty : Bool)
  | endKey
  | endValue
  | endTop (v : Json)
  | inString (acc : GoString) (pend : Option Nat) (st : StrState)
  | inNumber (st : NumState) (lit : List Char)
  | inLiteral (rest : List Char) (v : Json)

/-- Scanner state: the current step function and the parse stack. -/
structure Scanner where
  mode : Mode
  stack : List Frame

/-- The constant `maxNestingDepth` of `encoding/json`. -/
def maxNestingDepth : Nat := 10000

/-- The function `isSpace` of the scanner: space, tab, CR, LF. -/
def isSpace (n : Nat) : Bool := n = 32 || n = 9 || n = 13 || n = 10

/-- Decimal digit test on a code point. -/
def isDigit (n : Nat) : Bool := decide (48 ≤ n) && decide (n ≤ 57)

/-- Value of a hexadecimal digit (`getu4` accepts both cases). -/
def hexVal (n : Nat) : Option Nat :=
  if 48 ≤ n ∧ n ≤ 57 then some (n - 48)
  else if 97 ≤ n ∧ n ≤ 102 then some (n - 87)
  else if 65 ≤ n ∧ n ≤ 70 then some (n - 55)
  else none

/-- A completed value is handed to the enclosing frame. -/
def finish (v : Json) : List Frame → Option Scanner
  | [] => some ⟨Mode.endTop v, []⟩
  | Frame.arr done :: fs => some ⟨Mode.endValue, Frame.arr (done ++ [v]) :: fs⟩
  | Frame.objVal done k :: fs => some ⟨Mode.endValue, Frame.objKey (done ++ [(k, v)]) :: fs⟩
  | Frame.objKey _ :: _ => none

/-- The function `pushParseState`: opening a container fails beyond the
nesting limit. -/
def pushFrame (f : Frame) (m : Mode) (fs : List Frame) : Option Scanner :=
  if fs.length + 1 ≤ maxNestingDepth then some ⟨m, f :: fs⟩ else none

/-- The functions `stateEndValue` and `stateEndTop`: what may follow a completed
value or object key. -/
def stepEndValue (s : Scanner) (n : Nat) : Option Scanner :=
  match s.mode, s.stack with
  | Mode.endTop v, fs => if isSpace n then some ⟨Mode.endTop v, fs⟩ else none
  | Mode.endKey, fs =>
    if isSpace n then some ⟨Mode.endKey, fs⟩
    else if n = 58 then some ⟨Mode.beginValue false, fs⟩
    else none
  | Mode.endValue, Frame.arr done :: fs =>
    if isSpace n then some ⟨Mode.endValue, Frame.arr done :: fs⟩
    else if n = 44 then some ⟨Mode.beginValue false, Frame.arr done :: fs⟩
    else if n = 93 then finish (Json.arr done) fs
    else none
  | Mode.endValue, Frame.objKey done :: fs =>
    if isSpace n then some ⟨Mode.endValue, Frame.objKey done :: fs⟩
    else if n = 44 then some ⟨Mode.beginString false, Frame.objKey done :: fs⟩
    else if n = 125 then finish (Json.obj done) fs
    else none
  | _, _ => none

/-- The functions `stateBeginValueOrEmpty` and `stateBeginValue`. -/
def stepBeginValue (orEmpty : Bool) (fs : List Frame) (c : Char) : Option Scanner :=
  let n := c.toNat
  if isSpace n then some ⟨Mode.beginValue orEmpty, fs⟩
  else if orEmpty && n = 93 then stepEndValue ⟨Mode.endValue, fs⟩ n
  else if n = 123 then pushFrame (Frame.objKey []) (Mode.beginString true) fs
  else if n = 91 then pushFrame (Frame.arr []) (Mode.beginValue true) fs
  else if n = 34 then some ⟨Mode.inString [] none StrState.plain, fs⟩
  else if n = 45 then some ⟨Mode.inNumber NumState.neg [c], fs⟩
  else if n = 48 then some ⟨Mode.inNumber NumState.zero [c], fs⟩
  else if 49 ≤ n ∧ n ≤ 57 then some ⟨Mode.inNumber NumState.int [c], fs⟩
  else if n = 116 then some ⟨Mode.inLiteral ['r', 'u', 'e'] (Json.bool true), fs⟩
  else if n = 102 then some ⟨Mode.inLiteral ['a', 'l', 's', 'e'] (Json.bool false), fs⟩
  else if n = 110 then some ⟨Mode.inLiteral ['u', 'l', 'l'] Json.null, fs⟩
  else none

/-- The functions `stateBeginStringOrEmpty` and `stateBeginString`: an object
key, or the closing brace of an empty object. -/
def stepBeginString (orEmpty : Bool) (fs : List Frame) (c : Char) : Option Scanner :=
  let n := c.toNat
  if isSpace n then some ⟨Mode.beginString orEmpty, fs⟩
  else if orEmpty && n = 125 then stepEndValue ⟨Mode.endValue, fs⟩ n
  else if n = 34 then some ⟨Mode.inString [] none StrState.plain, fs⟩
  else none

/-- A high surrogate read from a `\u` escape still waits for its partner: if
none came, `unquote` writes U+FFFD for it. -/
def flush (acc : GoString) (pend : Option Nat) : GoString :=
  match pend with
  | some _ => acc ++ [replacementChar]
  | none => acc

/-- A `\u` escape with value `v` that starts afresh: a high surrogate waits for
the next escape, a lone low surrogate becomes U+FFFD. -/
def freshEscape (acc : GoString) (v : Nat) : GoString × Option Nat :=
  if 0xD800 ≤ v ∧ v < 0xDC00 then (acc, some v)
  else if 0xDC00 ≤ v ∧ v < 0xE000 then (acc ++ [replacementChar], none)
  else (acc ++ [GoChar.rune (Char.ofNat v)], none)

/-- A complete `\u` escape with value `v` in `unquote`: `utf16.DecodeRune` joins
it with a pending high surrogate when `v` is a low surrogate. -/
def unicodeEscape (acc : GoString) (pend : Option Nat) (v : Nat) : GoString × Option Nat :=
  match pend with
  | some hi =>
    if 0xDC00 ≤ v ∧ v < 0xE000 then
      (acc ++ [GoChar.rune (Char.ofNat (0x10000 + (hi - 0xD800) * 0x400 + (v - 0xDC00)))], none)
    else freshEscape (acc ++ [replacementChar]) v
  | none => freshEscape acc v

/-- The character denoted by a one-letter escape, if the scanner accepts the
letter (`stateInStringEsc`). -/
def simpleEscape (n : Nat) : Option Char :=
  if n = 98 then some (Char.ofNat 8)
  else if n = 102 then some (Char.ofNat 12)
  else if n = 110 then some (Char.ofNat 10)
  else if n = 114 then some (Char.ofNat 13)
  else if n = 116 then some (Char.ofNat 9)
  else if n = 92 then some (Char.ofNat 92)
  else if n = 47 then some (Char.ofNat 47)
  else if n = 34 then some (Char.ofNat 34)
  else none

/-- The end of a string literal: an object key opens its member, any other
string is a value. -/
def endString (s : GoString) : List Frame → Option Scanner
  | Frame.objKey done :: fs => some ⟨Mode.endKey, Frame.objVal done s :: fs⟩
  | fs => finish (Json.str s) fs

/-- Inside a string literal: the scanner states `stateInString*` together with
the decoding done by `unquote`. -/
def stepString (acc : GoString) (pend : Option Nat) (st : StrState) (fs : List Frame)
    (u : GoChar) : Option Scanner :=
  match st, u with
  | StrState.plain, GoChar.raw _ =>
    some ⟨Mode.inString (flush acc pend ++ [replacementChar]) none StrState.plain, fs⟩
  | StrState.plain, GoChar.rune c =>
    if c.toNat = 34 then endString (flush acc pend) fs
    else if c.toNat = 92 then some ⟨Mode.inString acc pend StrState.esc, fs⟩
    else if c.toNat < 32 then none
    else some ⟨Mode.inString (flush acc pend ++ [GoChar.rune c]) none StrState.plain, fs⟩
  | StrState.esc, GoChar.rune c =>
    if c.toNat = 117 then some ⟨Mode.inString acc pend (StrState.hex 0 0), fs⟩
    else match simpleEscape c.toNat with
      | some e => some ⟨Mode.inString (flush acc pend ++ [GoChar.rune e]) none StrState.plain, fs⟩
      | none => none
  | StrState.hex k v, GoChar.rune c =>
    match hexVal c.toNat with
    | some d =>
      if k < 3 then some ⟨Mode.inString acc pend (StrState.hex (k + 1) (v * 16 + d)), fs⟩
      else
        let r := unicodeEscape acc pend (v * 16 + d)
        some ⟨Mode.inString r.1 r.2 StrState.plain, fs⟩
    | none => none
  | _, GoChar.raw _ => none

/-- The number states: `some (some st)` continues the literal, `some none` ends
it before the character, `none` is a syntax error. -/
def numNext (st : NumState) (n : Nat) : Option (Option NumState) :=
  match st with
  | NumState.neg =>
    if n = 48 then some (some NumState.zero)
    else if 49 ≤ n ∧ n ≤ 57 then some (some NumState.int)
    else none
  | NumState.int =>
    if isDigit n then some (some NumState.int)
    else if n = 46 then some (some NumState.dot)
    else if n = 101 ∨ n = 69 then some (some NumState.exp)
    else some none
  | NumState.zero =>
    if n = 46 then some (some NumState.dot)
    else if n = 101 ∨ n = 69 then some (some NumState.exp)
    else some none
  | NumState.dot => if isDigit n then some (some NumState.frac) else none
  | NumState.frac =>
    if isDigit n then some (some NumState.frac)
    else if n = 101 ∨ n = 69 then some (some NumState.exp)
    else some none
  | NumState.exp =>
    if n = 43 ∨ n = 45 then some (some NumState.expSign)
    else if isDigit n then some (some NumState.expDigits)
    else none
  | NumState.expSign => if isDigit n then some (some NumState.expDigits) else none
  | NumState.expDigits => if isDigit n then some (some NumState.expDigits) else some none

/-- Inside a number literal. -/
def stepNumber (st : NumState) (lit : List Char) (fs : List Frame) (c : Char) :
    Option Scanner :=
  match numNext st c.toNat with
  | some (some st1) => some ⟨Mode.inNumber st1 (lit ++ [c]), fs⟩
  | some none => (finish (Json.num lit) fs).bind fun s => stepEndValue s c.toNat
  | none => none

/-- Inside `true`, `false` or `null`. -/
def stepLiteral (rest : List Char) (v : Json) (fs : List Frame) (c : Char) : Option Scanner :=
  match rest with
  | [] => none
  | e :: more =>
    if c = e then
      match more with
      | [] => finish v fs
      | _ :: _ => some ⟨Mode.inLiteral more v, fs⟩
    else none

/-- One step of the scanner on one unit of input (`scanner.step`); `none` is
`scanError`. -/
def step (s : Scanner) (u : GoChar) : Option Scanner :=
  match s.mode, u with
  | Mode.inString acc pend st, u => stepString acc pend st s.stack u
  | _, GoChar.raw _ => none
  | Mode.beginValue orEmpty, GoChar.rune c => stepBeginValue orEmpty s.stack c
  | Mode.beginString orEmpty, GoChar.rune c => stepBeginString orEmpty s.stack c
  | Mode.endKey, GoChar.rune c => stepEndValue s c.toNat
  | Mode.endValue, GoChar.rune c => stepEndValue s c.toNat
  | Mode.endTop _, GoChar.rune c => stepEndValue s c.toNat
  | Mode.inNumber st lit, GoChar.rune c => stepNumber st lit s.stack c
  | Mode.inLiteral rest v, GoChar.rune c => stepLiteral rest v s.stack c

/-- The scanner before the first byte (`scanner.reset`). -/
def scanStart : Scanner := ⟨Mode.beginValue false, []⟩

/-- The method `scanner.eof`: a top-level value must be complete; a number at
the very end is completed by feeding one space. -/
def scanEof (s : Scanner) : Option Json :=
  match s.mode with
  | Mode.endTop v => some v
  | _ =>
    match step s (GoChar.rune ' ') with
    | some ⟨Mode.endTop v, _⟩ => some v
    | _ => none

/-- The scan of a whole input (`checkValid`), returning the value read; `none`
is a syntax error. -/
def parseJSON (data : GoString) : Option Json :=
  (data.foldlM step scanStart).bind scanEof

/-! ## Decoding into `TelegramUpdate` -/

/-- Value of a run of decimal digits, most significant first; `none` unless
every character is a digit. -/
def parseDigits (acc : Nat) : List Char → Option Nat
  | [] => some acc
  | c :: cs => if isDigit c.toNat then parseDigits (acc * 10 + (c.toNat - 48)) cs else none

/-- The call `strconv.ParseInt(lit, 10, 64)`: an optional sign, at least one
digit, and a value that fits a signed 64-bit integer. -/
def parseInt (lit : List Char) : Option Int :=
  match lit with
  | [] => none
  | c :: cs =>
    if c.toNat = 45 then
      match cs with
      | [] => none
      | _ :: _ => (parseDigits 0 cs).bind fun m =>
          if m ≤ 2 ^ 63 then some (-(m : Int)) else none
    else if c.toNat = 43 then
      match cs with
      | [] => none
      | _ :: _ => (parseDigits 0 cs).bind fun m =>
          if m < 2 ^ 63 then some (m : Int) else none
    else (parseDigits 0 lit).bind fun m =>
      if m < 2 ^ 63 then some (m : Int) else none

/-- The anonymous struct behind `Message.From`. -/
structure Sender where
  ID : Int
  FirstName : GoString
  Username : GoString
deriving DecidableEq

/-- The anonymous struct of `Message.Chat`; the field `Type` is a keyword of
Lean and is written `Type_`. -/
structure Chat where
  ID : Int
  Type_ : GoString
deriving DecidableEq

/-- The anonymous struct behind `TelegramUpdate.Message`. -/
structure Message where
  MessageID : Int
  From : Option Sender
  Chat : Chat
  Text : GoString
deriving DecidableEq

/-- TelegramUpdate represents an incoming Telegram update. -/
structure TelegramUpdate where
  UpdateID : Int
  Message : Option Message
deriving DecidableEq

/-- TelegramResponse represents a response to send back to Telegram. -/
structure TelegramResponse where
  ChatID : Int
  Text : GoString
deriving DecidableEq

/-- The zero value of the struct behind `From`. -/
def Sender.zero : Sender := ⟨0, [], []⟩

/-- The zero value of the struct of `Chat`. -/
def Chat.zero : Chat := ⟨0, []⟩

/-- The zero value of the struct behind `Message`. -/
def Message.zero : Message := ⟨0, none, Chat.zero, []⟩

/-- The zero value that `var update TelegramUpdate` declares. -/
def TelegramUpdate.zero : TelegramUpdate := ⟨0, none⟩

/-- Unicode simple case folding against an ASCII code point `c`, as
`bytes.EqualFold` applies it: a letter matches its other case, and besides
`k`, `K` match U+212A (Kelvin sign) and `s`, `S` match U+017F (long s). -/
def foldsTo (x c : Nat) : Bool :=
  x = c
  || (decide (97 ≤ c) && decide (c ≤ 122) && x = c - 32)
  || (decide (65 ≤ c) && decide (c ≤ 90) && x = c + 32)
  || ((c = 107 || c = 75) && x = 0x212A)
  || ((c = 115 || c = 83) && x = 0x17F)

/-- Case-insensitive comparison of a decoded object key with an ASCII field
name (`bytes.EqualFold`, in newer releases `foldName` on both sides). -/
def equalFold : GoString → List Char → Bool
  | [], [] => true
  | GoChar.rune x :: ks, c :: cs => foldsTo x.toNat c.toNat && equalFold ks cs
  | _, _ => false

/-- Index of the first name satisfying `p`. -/
def firstIndex (p : String → Bool) : List String → Option Nat
  | [] => none
  | n :: ns => if p n then some 0 else (firstIndex p ns).map Nat.succ

/-- Field selection of `decodeState.object`: an exact match of the key with a
field name is preferred, else the first field whose name matches the key
case-insensitively; `none` for an unknown key, which is skipped. -/
def findField (names : List String) (key : GoString) : Option Nat :=
  match firstIndex (fun n => decide (key = go n)) names with
  | some i => some i
  | none => firstIndex (fun n => equalFold key n.data) names

/-- Storing a JSON value into a field of kind `int` or `int64` (both 64 bits
wide on the deployment target): `null` leaves the field as it is, a number
literal must pass `strconv.ParseInt`, anything else is an
`UnmarshalTypeError`. -/
def decodeInt (cur : Int) : Json → Option Int
  | Json.null => some cur
  | Json.num lit => parseInt lit
  | _ => none

/-- Storing a JSON value into a field of kind `string`. -/
def decodeString (cur : GoString) : Json → Option GoString
  | Json.null => some cur
  | Json.str s => some s
  | _ => none

/-- JSON names of the fields of the struct behind `From`. -/
def senderFields : List String := ["id", "first_name", "username"]

/-- JSON names of the fields of the struct of `Chat`. -/
def chatFields : List String := ["id", "type"]

/-- JSON names of the fields of the struct behind `Message`. -/
def messageFields : List String := ["message_id", "from", "chat", "text"]

/-- JSON names of the fields of `TelegramUpdate`. -/
def updateFields : List String := ["update_id", "message"]

/-- One member of a JSON object decoded into the struct behind `From`. -/
def decodeSenderMember (cur : Sender) (kv : GoString × Json) : Option Sender :=
  match findField senderFields kv.1 with
  | some 0 => (decodeInt cur.ID kv.2).map fun x => { cur with ID := x }
  | some 1 => (decodeString cur.FirstName kv.2).map fun x => { cur with FirstName := x }
  | some _ => (decodeString cur.Username kv.2).map fun x => { cur with Username := x }
  | none => some cur

/-- Storing a JSON value into the pointer field `From`: `null` sets the pointer
to nil, an object fills the struct pointed to, allocated when the pointer is
nil. -/
def decodeSender (cur : Option Sender) : Json → Option (Option Sender)
  | Json.null => some none
  | Json.obj ms => (ms.foldlM decodeSenderMember (cur.getD Sender.zero)).map some
  | _ => none

/-- One member of a JSON object decoded into the struct of `Chat`. -/
def decodeChatMember (cur : Chat) (kv : GoString × Json) : Option Chat :=
  match findField chatFields kv.1 with
  | some 0 => (decodeInt cur.ID kv.2).map fun x => { cur with ID := x }
  | some _ => (decodeString cur.Type_ kv.2).map fun x => { cur with Type_ := x }
  | none => some cur

/-- Storing a JSON value into the struct field `Chat`: `null` has no effect. -/
def decodeChat (cur : Chat) : Json → Option Chat
  | Json.null => some cur
  | Json.obj ms => ms.foldlM decodeChatMember cur
  | _ => none

/-- One member of a JSON object decoded into the struct behind `Message`. -/
def decodeMessageMember (cur : Message) (kv : GoString × Json) : Option Message :=
  match findField messageFields kv.1 with
  | some 0 => (decodeInt cur.MessageID kv.2).map fun x => { cur with MessageID := x }
  | some 1 => (decodeSender cur.From kv.2).map fun x => { cur with From := x }
  | some 2 => (decodeChat cur.Chat kv.2).map fun x => { cur with Chat := x }
  | some _ => (decodeString cur.Text kv.2).map fun x => { cur with Text := x }
  | none => some cur

/-- Storing a JSON value into the pointer field `Message`. -/
def decodeMessage (cur : Option Message) : Json → Option (Option Message)
  | Json.null => some none
  | Json.obj ms => (ms.foldlM decodeMessageMember (cur.getD Message.zero)).map some
  | _ => none

/-- One member of the top-level JSON object decoded into `TelegramUpdate`. -/
def decodeUpdateMember (cur : TelegramUpdate) (kv : GoString × Json) : Option TelegramUpdate :=
  match findField updateFields kv.1 with
  | some 0 => (decodeInt cur.UpdateID kv.2).map fun x => { cur with UpdateID := x }
  | some _ => (decodeMessage cur.Message kv.2).map fun x => { cur with Message := x }
  | none => some cur

/-- Storing the top-level JSON value into `update`: `null` has no effect and is
no error, an object fills the fields, any other value is an
`UnmarshalTypeError`. -/
def decodeUpdate (cur : TelegramUpdate) : Json → Option TelegramUpdate
  | Json.null => some cur
  | Json.obj ms => ms.foldlM decodeUpdateMember cur
  | _ => none

/-- The call `json.Unmarshal(body, &update)` on the zero `update`; `none` is a
non-nil error (a syntax error or a type mismatch). -/
def jsonUnmarshal (body : GoString) : Option TelegramUpdate :=
  (parseJSON body).bind (decodeUpdate TelegramUpdate.zero)

/-! ## Encoding of `TelegramResponse` -/

/-- Decimal digits of a positive number, most significant first; the empty
list for zero.  The first argument bounds the number of digits. -/
def digitsAux : Nat → Nat → List Char
  | 0, _ => []
  | fuel + 1, n => if n = 0 then [] else digitsAux fuel (n / 10) ++ [Char.ofNat (48 + n % 10)]

/-- Decimal digits of a natural number. -/
def natDigits (n : Nat) : List Char :=
  if n = 0 then ['0'] else digitsAux n n

/-- The call `strconv.AppendInt(b, n, 10)`, which `encoding/json` uses for
every integer kind. -/
def formatInt (n : Int) : List Char :=
  if n < 0 then '-' :: natDigits n.natAbs else natDigits n.natAbs

/-- The table `hex` of `encoding/json`. -/
def hex (n : Nat) : Char := "0123456789abcdef".data.getD n '0'

/-- The table `htmlSafeSet` of `encoding/json` on an ASCII code point: the
printable characters and DEL except the double quote, the backslash, `&`, `<`
and `>`. -/
def htmlSafe (n : Nat) : Bool :=
  decide (32 ≤ n) && decide (n < 128) && n != 34 && n != 92 && n != 38 && n != 60 && n != 62

/-- What `appendString` (with `escapeHTML`, as `json.Marshal` sets it) writes
for one unit of the string: safe characters as they are, short escapes for
the quote, the backslash, `\b`, `\f`, `\n`, `\r`, `\t`, a `\u00XX` escape
for the other control characters and for `&`, `<`, `>`, a `\u202X` escape for
U+2028 and U+2029, and `\ufffd` for a byte that is not valid UTF-8.  (Releases
before Go 1.22 write `\u0008` and `\u000c` for `\b` and `\f`; the scanner
reads both forms as the same character.) -/
def appendStringChar : GoChar → List Char
  | GoChar.raw _ => [Char.ofNat 92, 'u', 'f', 'f', 'f', 'd']
  | GoChar.rune c =>
    if c.toNat < 128 then
      if htmlSafe c.toNat then [c]
      else if c.toNat = 92 ∨ c.toNat = 34 then [Char.ofNat 92, c]
      else if c.toNat = 8 then [Char.ofNat 92, 'b']
      else if c.toNat = 12 then [Char.ofNat 92, 'f']
      else if c.toNat = 10 then [Char.ofNat 92, 'n']
      else if c.toNat = 13 then [Char.ofNat 92, 'r']
      else if c.toNat = 9 then [Char.ofNat 92, 't']
      else [Char.ofNat 92, 'u', '0', '0', hex (c.toNat / 16), hex (c.toNat % 16)]
    else if c.toNat = 0x2028 ∨ c.toNat = 0x2029 then
      [Char.ofNat 92, 'u', '2', '0', '2', hex (c.toNat % 16)]
    else [c]

/-- The function `appendString`: a JSON string literal for a Go string. -/
def appendString (s : GoString) : List Char :=
  Char.ofNat 34 :: (s.flatMap appendStringChar ++ [Char.ofNat 34])

/-- The bytes `json.Marshal` writes for a `TelegramResponse`: the two fields in
declaration order under their tag names. -/
def encodeResponse (response : TelegramResponse) : GoString :=
  go "\x7b\"chat_id\":" ++ (formatInt response.ChatID).map GoChar.rune
    ++ go ",\"text\":" ++ (appendString response.Text).map GoChar.rune ++ go "\x7d"

/-- The call `json.Marshal(response)` for a `TelegramResponse`.  The error
result is nil for every value of this type. -/
def jsonMarshal (response : TelegramResponse) : Except GoString GoString :=
  Except.ok (encodeResponse response)

/-! ## The HTTP boundary -/

/-- What `io.ReadAll` returns for a body reader: the bytes read and the error,
if any, that ended the read. -/
structure ReadResult where
  data : GoString
  err : Option GoString
deriving DecidableEq

/-- The inbound `*http.Request`: its method and its body reader. -/
structure Request where
  Method : GoString
  Body : ReadResult
deriving DecidableEq

/-- The arguments of one call of `http.Post`. -/
structure OutboundRequest where
  url : GoString
  contentType : GoString
  body : GoString
deriving DecidableEq

/-- The result of `http.Post`: a transport error with its text, or a response
with its status code and body reader. -/
inductive PostResult where
  | failure (err : GoString)
  | response (StatusCode : Nat) (Body : ReadResult)
deriving DecidableEq

/-- The surroundings of one request: the process environment and the
behaviour of the remote end of `http.Post`. -/
structure Env where
  lookupEnv : String → Option GoString
  post : OutboundRequest → PostResult

/-- The call `os.Getenv(key)`: the empty string for a variable that is not
set. -/
def Env.Getenv (env : Env) (key : String) : GoString :=
  (env.lookupEnv key).getD []

/-- Effects on the readers and on the network, in the order they happen. -/
inductive Effect where
  | readRequestBody
  | closeRequestBody
  | post (req : OutboundRequest)
  | readResponseBody
  | closeResponseBody
deriving DecidableEq

/-- The state of the `http.ResponseWriter`: the status code once the header is
written, and the body written so far. -/
structure ResponseWriter where
  status : Option Nat
  body : GoString
deriving DecidableEq

/-- The writer the server hands to the handler. -/
def ResponseWriter.fresh : ResponseWriter := ⟨none, []⟩

/-- The method `w.WriteHeader(code)`; a second call does not change the
status. -/
def ResponseWriter.WriteHeader (w : ResponseWriter) (code : Nat) : ResponseWriter :=
  match w.status with
  | none => { w with status := some code }
  | some _ => w

/-- The method `w.Write(b)`; it writes the header with status 200 when none was
written. -/
def ResponseWriter.Write (w : ResponseWriter) (b : GoString) : ResponseWriter :=
  { status := some (w.status.getD 200), body := w.body ++ b }

/-- The function `http.Error(w, error, code)`: the status, then the message
followed by a newline (`fmt.Fprintln`). -/
def httpError (w : ResponseWriter) (error : GoString) (code : Nat) : ResponseWriter :=
  (w.WriteHeader code).Write (error ++ go "\n")

/-- What a call leaves behind: the response written and the effects
performed. -/
structure Outcome where
  w : ResponseWriter
  effects : List Effect
deriving DecidableEq

/-- The reply text of `Handler`. -/
def replyText : GoString := go "Hello, I\x27m Vercel Bot!"

/-- The request that `sendMessage` hands to `http.Post`. -/
def outboundRequest (botToken : GoString) (jsonData : GoString) : OutboundRequest :=
  { url := go "https://api.telegram.org/bot" ++ botToken ++ go "/sendMessage",
    contentType := go "application/json",
    body := jsonData }

/-- The call of `http.Post` that `sendMessage(botToken, chatID, text)` makes. -/
def sendMessageRequest (botToken : GoString) (chatID : Int) (text : GoString) :
    OutboundRequest :=
  outboundRequest botToken (encodeResponse { ChatID := chatID, Text := text })

/-- The outbound calls among the effects. -/
def posts : List Effect → List OutboundRequest
  | [] => []
  | Effect.post req :: es => req :: posts es
  | _ :: es => posts es

/-- sendMessage sends a message to a Telegram chat.  The result is the text of
the returned error (`none` for nil) and the effects performed. -/
def sendMessage (env : Env) (botToken : GoString) (chatID : Int) (text : GoString) :
    Option GoString × List Effect :=
  let response : TelegramResponse := { ChatID := chatID, Text := text }
  match jsonMarshal response with
  | Except.error err => (some (go "error marshaling response: " ++ err), [])
  | Except.ok jsonData =>
    let req := outboundRequest botToken jsonData
    match env.post req with
    | PostResult.failure err => (some (go "error making request: " ++ err), [Effect.post req])
    | PostResult.response StatusCode Body =>
      if StatusCode ≠ 200 then
        (some (go "telegram API error: " ++ Body.data),
          [Effect.post req, Effect.readResponseBody, Effect.closeResponseBody])
      else (none, [Effect.post req, Effect.closeResponseBody])

/-- Handler is the main webhook handler for Vercel. -/
def Handler (env : Env) (w : ResponseWriter) (r : Request) : Outcome :=
  if r.Method ≠ go "POST" then ⟨w.WriteHeader 405, []⟩
  else
    let botToken := env.Getenv "TELEGRAM_BOT_TOKEN"
    if botToken = [] then ⟨httpError w (go "TELEGRAM_BOT_TOKEN not set") 500, []⟩
    else
      match r.Body.err with
      | some _ => ⟨httpError w (go "Error reading request body") 400, [Effect.readRequestBody]⟩
      | none =>
        match jsonUnmarshal r.Body.data with
        | none =>
          ⟨httpError w (go "Error parsing JSON") 400,
            [Effect.readRequestBody, Effect.closeRequestBody]⟩
        | some update =>
          match update.Message with
          | none => ⟨w.WriteHeader 200, [Effect.readRequestBody, Effect.closeRequestBody]⟩
          | some message =>
            if message.Text = [] then
              ⟨w.WriteHeader 200, [Effect.readRequestBody, Effect.closeRequestBody]⟩
            else
              match sendMessage env botToken message.Chat.ID replyText with
              | (some err, effects) =>
                ⟨httpError w (go "Error sending message: " ++ err) 500,
                  Effect.readRequestBody :: (effects ++ [Effect.closeRequestBody])⟩
              | (none, effects) =>
                ⟨(w.WriteHeader 200).Write (go "OK"),
                  Effect.readRequestBody :: (effects ++ [Effect.closeRequestBody])⟩

/-- Requests served one after the other in one process: every request gets a
fresh writer, and the package holds no variable that one invocation could
leave to the next. -/
def serveAll (env : Env) : List Request → List Outcome
  | [] => []
  | r :: rs => Handler env ResponseWriter.fresh r :: serveAll env rs

/-- A process environment with the credential `T` and a remote that answers
200. -/
def sampleEnv : Env :=
  { lookupEnv := fun key => if key = "TELEGRAM_BOT_TOKEN" then some (go "T") else none,
    post := fun _ => PostResult.response 200 ⟨go "\x7b\"ok\":true\x7d", none⟩ }

/-- A process environment with the credential `T` and a remote that answers
403 with a diagnostic body. -/
def failingEnv : Env :=
  { lookupEnv := fun key => if key = "TELEGRAM_BOT_TOKEN" then some (go "T") else none,
    post := fun _ => PostResult.response 403 ⟨go "Forbidden", none⟩ }

/-- A process environment without the credential. -/
def bareEnv : Env :=
  { lookupEnv := fun _ => none,
    post := fun _ => PostResult.response 200 ⟨[], none⟩ }

/-- The inbound payload of the specification. -/
def sampleBody : GoString :=
  go "\x7b\"update_id\":1,\"message\":\x7b\"message_id\":1,\"chat\":\x7b\"id\":555,\"type\":\"private\"\x7d,\"text\":\"hi\"\x7d\x7d"

/-- A POST request whose body is read without error. -/
def postRequest (body : GoString) : Request := ⟨go "POST", ⟨body, none⟩⟩

/-! ## Adding fields to an inbound object -/

/-- Every JSON name of the inbound schema. -/
def schemaNames : List String := updateFields ++ messageFields ++ senderFields ++ chatFields

/-- The name is none of the names of the schema. -/
def NotInSchema (k : GoString) : Prop := ∀ n ∈ schemaNames, k ≠ go n

/-- The name matches none of the names of the schema under the case-insensitive
comparison of `encoding/json`. -/
def MatchesNoField (k : GoString) : Prop := ∀ n ∈ schemaNames, equalFold k n.data = false

/-- The member list `ms2` is `ms` with further members added whose names
satisfy `unknown`; the value of a member that is kept may change as `inner`
allows. -/
inductive AddedMembers (unknown : GoString → Prop) (inner : GoString → Json → Json → Prop) :
    List (GoString × Json) → List (GoString × Json) → Prop where
  | nil : AddedMembers unknown inner [] []
  | keep (k : GoString) (v v2 : Json) (ms ms2 : List (GoString × Json)) :
      inner k v v2 → AddedMembers unknown inner ms ms2 →
      AddedMembers unknown inner ((k, v) :: ms) ((k, v2) :: ms2)
  | add (k : GoString) (v : Json) (ms ms2 : List (GoString × Json)) :
      unknown k → AddedMembers unknown inner ms ms2 →
      AddedMembers unknown inner ms ((k, v) :: ms2)

/-- The object `v2` is the object `v` with members added. -/
def AddedToObject (unknown : GoString → Prop) (inner : GoString → Json → Json → Prop)
    (v v2 : Json) : Prop :=
  ∃ ms ms2, v = Json.obj ms ∧ v2 = Json.obj ms2 ∧ AddedMembers unknown inner ms ms2

/-- Inside `message.from` and `message.chat` the values of the members stay as
they are. -/
def leafInner (_ : GoString) (v v2 : Json) : Prop := v2 = v

/-- Inside `message`, fields may be added to the objects under `from` and
`chat`. -/
def messageInner (unknown : GoString → Prop) (k : GoString) (v v2 : Json) : Prop :=
  v2 = v ∨ ((k = go "from" ∨ k = go "chat") ∧ AddedToObject unknown leafInner v v2)

/-- At the top level, fields may be added to the object under `message`. -/
def updateInner (unknown : GoString → Prop) (k : GoString) (v v2 : Json) : Prop :=
  v2 = v ∨ (k = go "message" ∧ AddedToObject unknown (messageInner unknown) v v2)

/-- The JSON object `b2` is the JSON object `b` with fields added at the top
level, inside `message`, inside `message.from` or inside `message.chat`, the
names of the added fields satisfying `unknown`. -/
def AddedFields (unknown : GoString → Prop) (b b2 : Json) : Prop :=
  AddedToObject unknown (updateInner unknown) b b2

/-- The response and effects of `Handler` once the request carries a message
with text: they are those of `sendMessage`, framed by the read and the
deferred close of the request body. -/
def respond (result : Option GoString × List Effect) : Outcome :=
  match result with
  | (some err, effects) =>
    ⟨httpError ResponseWriter.fresh (go "Error sending message: " ++ err) 500,
      Effect.readRequestBody :: (effects ++ [Effect.closeRequestBody])⟩
  | (none, effects) =>
    ⟨(ResponseWriter.fresh.WriteHeader 200).Write (go "OK"),
      Effect.readRequestBody :: (effects ++ [Effect.closeRequestBody])⟩

/-! ## Theorems -/

/-- C1: a request whose method is not POST is answered with status 405 and an
empty body, whatever the body and the environment are; no effect is performed,
so the body is not read and `http.Post` is not called. -/
theorem Handler_method_not_allowed (env : Env) (r : Request) (h : r.Method ≠ go "POST") :
    Handler env ResponseWriter.fresh r = ⟨⟨some 405, []⟩, []⟩ := by
  simp [Handler, h, ResponseWriter.WriteHeader, ResponseWriter.fresh]

theorem Handler_method_not_allowed_witness :
    go "GET" ≠ go "POST" ∧
    Handler bareEnv ResponseWriter.fresh ⟨go "GET", ⟨sampleBody, none⟩⟩ = ⟨⟨some 405, []⟩, []⟩ :=
  ⟨by decide, Handler_method_not_allowed bareEnv ⟨go "GET", ⟨sampleBody, none⟩⟩ (by decide)⟩

/-- C2: a POST request handled while `TELEGRAM_BOT_TOKEN` is unset or empty is
answered with status 500 and the message `TELEGRAM_BOT_TOKEN not set` (which
`http.Error` ends with a newline), whatever the body reader holds; no effect is
performed, so `http.Post` is not called. -/
theorem Handler_missing_token (env : Env) (r : Request) (hm : r.Method = go "POST")
    (ht : env.lookupEnv "TELEGRAM_BOT_TOKEN" = none ∨
      env.lookupEnv "TELEGRAM_BOT_TOKEN" = some []) :
    Handler env ResponseWriter.fresh r
      = ⟨httpError ResponseWriter.fresh (go "TELEGRAM_BOT_TOKEN not set") 500, []⟩
    ∧ httpError ResponseWriter.fresh (go "TELEGRAM_BOT_TOKEN not set") 500
      = ⟨some 500, go "TELEGRAM_BOT_TOKEN not set\n"⟩ := by
  have hg : env.Getenv "TELEGRAM_BOT_TOKEN" = [] := by
    rcases ht with ht | ht <;> simp [Env.Getenv, ht]
  refine ⟨?_, by decide⟩
  simp [Handler, hm, hg]

theorem Handler_missing_token_witness :
    Handler bareEnv ResponseWriter.fresh ⟨go "POST", ⟨sampleBody, some (go "EOF")⟩⟩
      = ⟨httpError ResponseWriter.fresh (go "TELEGRAM_BOT_TOKEN not set") 500, []⟩
    ∧ httpError ResponseWriter.fresh (go "TELEGRAM_BOT_TOKEN not set") 500
      = ⟨some 500, go "TELEGRAM_BOT_TOKEN not set\n"⟩ :=
  Handler_missing_token bareEnv ⟨go "POST", ⟨sampleBody, some (go "EOF")⟩⟩ (by decide)
    (Or.inl (by decide))

/-- C3: a POST request with the credential set and a readable body that is
malformed JSON (the scanner of `encoding/json` rejects it) or JSON that does
not fit `TelegramUpdate` (a value cannot be stored into the field it is meant
for, an `UnmarshalTypeError`) is answered with status 400 and the message
`Error parsing JSON`; the body is read and closed and `http.Post` is not
called. -/
theorem Handler_parse_error (env : Env) (r : Request) (hm : r.Method = go "POST")
    (ht : env.Getenv "TELEGRAM_BOT_TOKEN" ≠ []) (hr : r.Body.err = none)
    (hj : parseJSON r.Body.data = none
      ∨ ∃ j, parseJSON r.Body.data = some j ∧ decodeUpdate TelegramUpdate.zero j = none) :
    Handler env ResponseWriter.fresh r
      = ⟨⟨some 400, go "Error parsing JSON\n"⟩,
          [Effect.readRequestBody, Effect.closeRequestBody]⟩
    ∧ posts (Handler env ResponseWriter.fresh r).effects = [] := by
  have hu : jsonUnmarshal r.Body.data = none := by
    rcases hj with hj | ⟨j, hj, hd⟩
    · simp [jsonUnmarshal, hj]
    · simp [jsonUnmarshal, hj, hd]
  have h : Handler env ResponseWriter.fresh r
      = ⟨httpError ResponseWriter.fresh (go "Error parsing JSON") 400,
          [Effect.readRequestBody, Effect.closeRequestBody]⟩ := by
    simp [Handler, hm, ht, hr, hu]
  rw [h]
  exact ⟨by decide, by decide⟩

theorem Handler_parse_error_witness :
    (parseJSON [] = none
      ∧ Handler sampleEnv ResponseWriter.fresh (postRequest [])
        = ⟨⟨some 400, go "Error parsing JSON\n"⟩,
            [Effect.readRequestBody, Effect.closeRequestBody]⟩)
    ∧ (parseJSON (go "\x7b\"update_id\":1,\"message\":\x7b\"text\":\"hi") = none
      ∧ Handler sampleEnv ResponseWriter.fresh
          (postRequest (go "\x7b\"update_id\":1,\"message\":\x7b\"text\":\"hi"))
        = ⟨⟨some 400, go "Error parsing JSON\n"⟩,
            [Effect.readRequestBody, Effect.closeRequestBody]⟩)
    ∧ (parseJSON (go "\x7b\"message\":\x7b\"text\":42\x7d\x7d")
        = some (Json.obj [(go "message", Json.obj [(go "text", Json.num ['4', '2'])])])
      ∧ decodeUpdate TelegramUpdate.zero
          (Json.obj [(go "message", Json.obj [(go "text", Json.num ['4', '2'])])]) = none
      ∧ Handler sampleEnv ResponseWriter.fresh
          (postRequest (go "\x7b\"message\":\x7b\"text\":42\x7d\x7d"))
        = ⟨⟨some 400, go "Error parsing JSON\n"⟩,
            [Effect.readRequestBody, Effect.closeRequestBody]⟩) :=
  ⟨⟨rfl,
      (Handler_parse_error sampleEnv (postRequest []) (by decide) (by decide) (by decide)
        (Or.inl rfl)).1⟩,
    ⟨rfl,
      (Handler_parse_error sampleEnv
        (postRequest (go "\x7b\"update_id\":1,\"message\":\x7b\"text\":\"hi"))
        (by decide) (by decide) (by decide) (Or.inl rfl)).1⟩,
    ⟨rfl, by decide,
      (Handler_parse_error sampleEnv
        (postRequest (go "\x7b\"message\":\x7b\"text\":42\x7d\x7d"))
        (by decide) (by decide) (by decide) (Or.inr ⟨_, rfl, by decide⟩)).1⟩⟩

/-- C4: a POST request with the credential set whose body decodes into a
`TelegramUpdate` with a nil `Message` or with an empty `Message.Text` is
answered with status 200 and an empty body; the body is read and closed and
`sendMessage` is not called, so there is no outbound call. -/
theorem Handler_nothing_actionable (env : Env) (r : Request) (update : TelegramUpdate)
    (hm : r.Method = go "POST") (ht : env.Getenv "TELEGRAM_BOT_TOKEN" ≠ [])
    (hr : r.Body.err = none) (hj : jsonUnmarshal r.Body.data = some update)
    (hu : update.Message = none ∨ ∃ message, update.Message = some message ∧ message.Text = []) :
    Handler env ResponseWriter.fresh r
      = ⟨⟨some 200, []⟩, [Effect.readRequestBody, Effect.closeRequestBody]⟩
    ∧ posts (Handler env ResponseWriter.fresh r).effects = [] := by
  have h : Handler env ResponseWriter.fresh r
      = ⟨⟨some 200, []⟩, [Effect.readRequestBody, Effect.closeRequestBody]⟩ := by
    rcases hu with hu | ⟨message, hu, htext⟩
    · simp [Handler, hm, ht, hr, hj, hu, ResponseWriter.WriteHeader, ResponseWriter.fresh]
    · simp [Handler, hm, ht, hr, hj, hu, htext, ResponseWriter.WriteHeader,
        ResponseWriter.fresh]
  rw [h]
  exact ⟨rfl, by decide⟩

theorem Handler_nothing_actionable_witness :
    (Handler sampleEnv ResponseWriter.fresh (postRequest (go "\x7b\"update_id\":7\x7d"))
        = ⟨⟨some 200, []⟩, [Effect.readRequestBody, Effect.closeRequestBody]⟩)
    ∧ (Handler sampleEnv ResponseWriter.fresh
          (postRequest (go "\x7b\"update_id\":7,\"message\":null\x7d"))
        = ⟨⟨some 200, []⟩, [Effect.readRequestBody, Effect.closeRequestBody]⟩)
    ∧ (Handler sampleEnv ResponseWriter.fresh
          (postRequest (go "\x7b\"message\":\x7b\"chat\":\x7b\"id\":5\x7d,\"text\":\"\"\x7d\x7d"))
        = ⟨⟨some 200, []⟩, [Effect.readRequestBody, Effect.closeRequestBody]⟩) :=
  ⟨(Handler_nothing_actionable sampleEnv (postRequest (go "\x7b\"update_id\":7\x7d"))
      ⟨7, none⟩ (by decide) (by decide) (by decide) (by decide) (Or.inl rfl)).1,
    (Handler_nothing_actionable sampleEnv
      (postRequest (go "\x7b\"update_id\":7,\"message\":null\x7d"))
      ⟨7, none⟩ (by decide) (by decide) (by decide) (by decide) (Or.inl rfl)).1,
    (Handler_nothing_actionable sampleEnv
      (postRequest (go "\x7b\"message\":\x7b\"chat\":\x7b\"id\":5\x7d,\"text\":\"\"\x7d\x7d"))
      ⟨0, some ⟨0, none, ⟨5, []⟩, []⟩⟩ (by decide) (by decide) (by decide) (by decide)
      (Or.inr ⟨_, rfl, rfl⟩)).1⟩

/-- C5: a POST request with the credential set whose body decodes into an
update with a message of non-empty text, when the remote answers the outbound
call with status 200, is answered with status 200 and body `OK`; `http.Post`
is called exactly once, with the request `sendMessage` builds from the
credential, the chat id `message.Chat.ID` and the constant text
`Hello, I'm Vercel Bot!`, whatever the other fields of the update are. -/
theorem Handler_success (env : Env) (r : Request) (update : TelegramUpdate)
    (message : Message) (remoteBody : ReadResult)
    (hm : r.Method = go "POST") (ht : env.Getenv "TELEGRAM_BOT_TOKEN" ≠ [])
    (hr : r.Body.err = none) (hj : jsonUnmarshal r.Body.data = some update)
    (hu : update.Message = some message) (htext : message.Text ≠ [])
    (hp : env.post (sendMessageRequest (env.Getenv "TELEGRAM_BOT_TOKEN") message.Chat.ID
        (go "Hello, I\x27m Vercel Bot!")) = PostResult.response 200 remoteBody) :
    Handler env ResponseWriter.fresh r
      = ⟨⟨some 200, go "OK"⟩,
          [Effect.readRequestBody,
            Effect.post (sendMessageRequest (env.Getenv "TELEGRAM_BOT_TOKEN") message.Chat.ID
              (go "Hello, I\x27m Vercel Bot!")),
            Effect.closeResponseBody, Effect.closeRequestBody]⟩
    ∧ posts (Handler env ResponseWriter.fresh r).effects
      = [sendMessageRequest (env.Getenv "TELEGRAM_BOT_TOKEN") message.Chat.ID
          (go "Hello, I\x27m Vercel Bot!")] := by
  have hp2 : env.post (outboundRequest (env.Getenv "TELEGRAM_BOT_TOKEN")
      (encodeResponse ⟨message.Chat.ID, replyText⟩)) = PostResult.response 200 remoteBody := hp
  have h : Handler env ResponseWriter.fresh r
      = ⟨⟨some 200, go "OK"⟩,
          [Effect.readRequestBody,
            Effect.post (sendMessageRequest (env.Getenv "TELEGRAM_BOT_TOKEN") message.Chat.ID
              (go "Hello, I\x27m Vercel Bot!")),
            Effect.closeResponseBody, Effect.closeRequestBody]⟩ := by
    simp [Handler, hm, ht, hr, hj, hu, htext, sendMessage, jsonMarshal, hp2,
      ResponseWriter.WriteHeader, ResponseWriter.Write, ResponseWriter.fresh]
    rfl
  rw [h]
  exact ⟨rfl, rfl⟩

theorem Handler_success_witness :
    Handler sampleEnv ResponseWriter.fresh (postRequest sampleBody)
      = ⟨⟨some 200, go "OK"⟩,
          [Effect.readRequestBody,
            Effect.post ⟨go "https://api.telegram.org/botT/sendMessage", go "application/json",
              go "\x7b\"chat_id\":555,\"text\":\"Hello, I\x27m Vercel Bot!\"\x7d"⟩,
            Effect.closeResponseBody, Effect.closeRequestBody]⟩ :=
  (Handler_success sampleEnv (postRequest sampleBody)
    ⟨1, some ⟨1, none, ⟨555, go "private"⟩, go "hi"⟩⟩ ⟨1, none, ⟨555, go "private"⟩, go "hi"⟩
    ⟨go "\x7b\"ok\":true\x7d", none⟩
    (by decide) (by decide) (by decide) (by decide) rfl (by decide) rfl).1

/-- C6: a POST request with the credential set and a message of non-empty
text, when the outbound call fails (`http.Post` returns an error, or the remote
answers with a status other than 200), is answered with status 500 and the
body `Error sending message: ` followed by the error text and a newline.  The
error text is `error making request: ` with the transport error, or
`telegram API error: ` with the bytes read from the remote body, so the body
written contains them.  `OK` is not written and `http.Post` is called exactly
once. -/
theorem Handler_send_failure (env : Env) (r : Request) (update : TelegramUpdate)
    (message : Message)
    (hm : r.Method = go "POST") (ht : env.Getenv "TELEGRAM_BOT_TOKEN" ≠ [])
    (hr : r.Body.err = none) (hj : jsonUnmarshal r.Body.data = some update)
    (hu : update.Message = some message) (htext : message.Text ≠ [])
    (hp : ∀ remoteBody, env.post (sendMessageRequest (env.Getenv "TELEGRAM_BOT_TOKEN")
        message.Chat.ID replyText) ≠ PostResult.response 200 remoteBody) :
    ∃ detail,
      (Handler env ResponseWriter.fresh r).w
        = ⟨some 500, go "Error sending message: " ++ detail ++ go "\n"⟩
      ∧ (∀ err, env.post (sendMessageRequest (env.Getenv "TELEGRAM_BOT_TOKEN")
            message.Chat.ID replyText) = PostResult.failure err →
          detail = go "error making request: " ++ err)
      ∧ (∀ code remoteBody, env.post (sendMessageRequest (env.Getenv "TELEGRAM_BOT_TOKEN")
            message.Chat.ID replyText) = PostResult.response code remoteBody →
          detail = go "telegram API error: " ++ remoteBody.data
          ∧ remoteBody.data <:+: (Handler env ResponseWriter.fresh r).w.body)
      ∧ (Handler env ResponseWriter.fresh r).w.body ≠ go "OK"
      ∧ posts (Handler env ResponseWriter.fresh r).effects
        = [sendMessageRequest (env.Getenv "TELEGRAM_BOT_TOKEN") message.Chat.ID replyText] := by
  have hne : ∀ x : GoString, go "Error sending message: " ++ x ++ go "\n" ≠ go "OK" := by
    intro x hx
    have hE : go "Error sending message: " = GoChar.rune 'E' :: go "rror sending message: " := by
      decide
    have hO : go "OK" = GoChar.rune 'O' :: go "K" := by decide
    rw [hE, hO] at hx
    have h1 : GoChar.rune 'E' = GoChar.rune 'O' := (List.cons.inj hx).1
    exact absurd h1 (by decide)
  cases hq : env.post (sendMessageRequest (env.Getenv "TELEGRAM_BOT_TOKEN")
      message.Chat.ID replyText) with
  | failure err =>
    have hq2 : env.post (outboundRequest (env.Getenv "TELEGRAM_BOT_TOKEN")
        (encodeResponse ⟨message.Chat.ID, replyText⟩)) = PostResult.failure err := hq
    have hw : Handler env ResponseWriter.fresh r
        = ⟨httpError ResponseWriter.fresh
            (go "Error sending message: " ++ (go "error making request: " ++ err)) 500,
          [Effect.readRequestBody,
            Effect.post (sendMessageRequest (env.Getenv "TELEGRAM_BOT_TOKEN")
              message.Chat.ID replyText), Effect.closeRequestBody]⟩ := by
      simp [Handler, hm, ht, hr, hj, hu, htext, sendMessage, jsonMarshal, hq2]
      rfl
    refine ⟨go "error making request: " ++ err, ?_, ?_, ?_, ?_, ?_⟩
    · rw [hw]; rfl
    · intro e he; cases he; rfl
    · intro code rb he; cases he
    · rw [hw]; exact hne _
    · rw [hw]; rfl
  | response code remoteBody =>
    have hc : code ≠ 200 := by
      intro hc
      exact hp remoteBody (by rw [hq, hc])
    have hq2 : env.post (outboundRequest (env.Getenv "TELEGRAM_BOT_TOKEN")
        (encodeResponse ⟨message.Chat.ID, replyText⟩))
        = PostResult.response code remoteBody := hq
    have hw : Handler env ResponseWriter.fresh r
        = ⟨httpError ResponseWriter.fresh
            (go "Error sending message: " ++ (go "telegram API error: " ++ remoteBody.data)) 500,
          [Effect.readRequestBody,
            Effect.post (sendMessageRequest (env.Getenv "TELEGRAM_BOT_TOKEN")
              message.Chat.ID replyText),
            Effect.readResponseBody, Effect.closeResponseBody, Effect.closeRequestBody]⟩ := by
      simp [Handler, hm, ht, hr, hj, hu, htext, sendMessage, jsonMarshal, hq2, hc]
      rfl
    refine ⟨go "telegram API error: " ++ remoteBody.data, ?_, ?_, ?_, ?_, ?_⟩
    · rw [hw]; rfl
    · intro e he; cases he
    · intro code2 rb he
      cases he
      refine ⟨rfl, ?_⟩
      rw [hw]
      exact ⟨go "Error sending message: " ++ go "telegram API error: ", go "\n", by
        simp [httpError, ResponseWriter.Write, ResponseWriter.WriteHeader,
          ResponseWriter.fresh]⟩
    · rw [hw]; exact hne _
    · rw [hw]; rfl

theorem Handler_send_failure_witness :
    ∃ detail,
      (Handler failingEnv ResponseWriter.fresh (postRequest sampleBody)).w
        = ⟨some 500, go "Error sending message: " ++ detail ++ go "\n"⟩
      ∧ (∀ err, failingEnv.post (sendMessageRequest (failingEnv.Getenv "TELEGRAM_BOT_TOKEN")
            555 replyText) = PostResult.failure err →
          detail = go "error making request: " ++ err)
      ∧ (∀ code remoteBody,
          failingEnv.post (sendMessageRequest (failingEnv.Getenv "TELEGRAM_BOT_TOKEN")
            555 replyText) = PostResult.response code remoteBody →
          detail = go "telegram API error: " ++ remoteBody.data
          ∧ remoteBody.data
            <:+: (Handler failingEnv ResponseWriter.fresh (postRequest sampleBody)).w.body)
      ∧ (Handler failingEnv ResponseWriter.fresh (postRequest sampleBody)).w.body ≠ go "OK"
      ∧ posts (Handler failingEnv ResponseWriter.fresh (postRequest sampleBody)).effects
        = [sendMessageRequest (failingEnv.Getenv "TELEGRAM_BOT_TOKEN") 555 replyText] :=
  Handler_send_failure failingEnv (postRequest sampleBody)
    ⟨1, some ⟨1, none, ⟨555, go "private"⟩, go "hi"⟩⟩ ⟨1, none, ⟨555, go "private"⟩, go "hi"⟩
    (by decide) (by decide) (by decide) (by decide) rfl (by decide)
    (fun remoteBody h => by
      have h2 : (403 : Nat) = 200 := by
        have h3 : PostResult.response 403 ⟨go "Forbidden", none⟩
            = PostResult.response 200 remoteBody := h
        injection h3
      exact absurd h2 (by decide))

theorem Handler_actionable (env : Env) (r : Request) (update : TelegramUpdate)
    (message : Message)
    (hm : r.Method = go "POST") (ht : env.Getenv "TELEGRAM_BOT_TOKEN" ≠ [])
    (hr : r.Body.err = none) (hj : jsonUnmarshal r.Body.data = some update)
    (hu : update.Message = some message) (htext : message.Text ≠ []) :
    Handler env ResponseWriter.fresh r
      = respond (sendMessage env (env.Getenv "TELEGRAM_BOT_TOKEN") message.Chat.ID replyText) := by
  simp only [Handler, hm, ht, hr, hj, hu, htext, respond, ne_eq, not_true_eq_false, if_false,
    ite_false, reduceIte]

theorem posts_sendMessage (env : Env) (botToken : GoString) (chatID : Int) (text : GoString) :
    posts (sendMessage env botToken chatID text).2 = [sendMessageRequest botToken chatID text] := by
  unfold sendMessage
  simp only [jsonMarshal]
  cases hq : env.post (outboundRequest botToken (encodeResponse ⟨chatID, text⟩)) with
  | failure err => rfl
  | response code body =>
    by_cases hc : code = 200
    · simp [hc, posts, sendMessageRequest]
    · simp [hc, posts, sendMessageRequest]

theorem posts_respond (result : Option GoString × List Effect) :
    posts (respond result).effects = posts result.2 := by
  have hp : ∀ es : List Effect, posts (es ++ [Effect.closeRequestBody]) = posts es := by
    intro es
    induction es with
    | nil => rfl
    | cons e es ih => cases e <;> simp [posts, ih]
  rcases result with ⟨_ | err, effects⟩ <;> simp [respond, posts, hp]

theorem sendMessage_congr (env env2 : Env) (botToken : GoString) (chatID : Int)
    (text : GoString)
    (h : env2.post (sendMessageRequest botToken chatID text)
      = env.post (sendMessageRequest botToken chatID text)) :
    sendMessage env2 botToken chatID text = sendMessage env botToken chatID text := by
  have h2 : env2.post (outboundRequest botToken (encodeResponse ⟨chatID, text⟩))
      = env.post (outboundRequest botToken (encodeResponse ⟨chatID, text⟩)) := h
  simp only [sendMessage, jsonMarshal, h2]

theorem serveAll_append (env : Env) (before after : List Request) :
    serveAll env (before ++ after) = serveAll env before ++ serveAll env after := by
  induction before with
  | nil => rfl
  | cons r rs ih => simp [serveAll, ih]

theorem serveAll_length (env : Env) (rs : List Request) :
    (serveAll env rs).length = rs.length := by
  induction rs with
  | nil => rfl
  | cons r rs ih => simp [serveAll, ih]

/-- Past the read of the body every exit of `Handler` runs the deferred close:
the close of the request body is the last effect. -/
theorem Handler_closes_body_after_read (env : Env) (r : Request)
    (hm : r.Method = go "POST") (ht : env.Getenv "TELEGRAM_BOT_TOKEN" ≠ [])
    (hr : r.Body.err = none) :
    (Handler env ResponseWriter.fresh r).effects.getLast? = some Effect.closeRequestBody := by
  cases hj : jsonUnmarshal r.Body.data with
  | none => simp [Handler, hm, ht, hr, hj]
  | some update =>
    cases hu : update.Message with
    | none => simp [Handler, hm, ht, hr, hj, hu]
    | some message =>
      by_cases htext : message.Text = []
      · simp [Handler, hm, ht, hr, hj, hu, htext]
      · rw [Handler_actionable env r update message hm ht hr hj hu htext]
        have hlast : ∀ (w : ResponseWriter) (es : List Effect),
            (Outcome.mk w (Effect.readRequestBody :: (es ++ [Effect.closeRequestBody]))).effects.getLast?
              = some Effect.closeRequestBody := by
          intro w es
          show (Effect.readRequestBody :: (es ++ [Effect.closeRequestBody])).getLast? = _
          rw [← List.cons_append, List.getLast?_append]
          rfl
        rcases sendMessage env (env.Getenv "TELEGRAM_BOT_TOKEN") message.Chat.ID replyText
          with ⟨_ | err, effects⟩
        · exact hlast _ _
        · exact hlast _ _

/-- Whenever `http.Post` returned a response, `sendMessage` closes its body
before it returns. -/
theorem sendMessage_closes_response_body (env : Env) (botToken : GoString) (chatID : Int)
    (text : GoString) (code : Nat) (body : ReadResult)
    (h : env.post (sendMessageRequest botToken chatID text) = PostResult.response code body) :
    (sendMessage env botToken chatID text).2.getLast? = some Effect.closeResponseBody := by
  have h2 : env.post (outboundRequest botToken (encodeResponse ⟨chatID, text⟩))
      = PostResult.response code body := h
  by_cases hc : code = 200 <;> simp [sendMessage, jsonMarshal, h2, hc]

/-- C9, at the early exits: a request with another method, a POST without the
credential and a POST whose body cannot be read all return before
`defer r.Body.Close()` is reached, so `Handler` returns without closing the
request body. -/
theorem Handler_early_exit_leaves_body_open :
    (Handler sampleEnv ResponseWriter.fresh ⟨go "GET", ⟨sampleBody, none⟩⟩).effects = []
    ∧ (Handler bareEnv ResponseWriter.fresh (postRequest sampleBody)).effects = []
    ∧ (Handler sampleEnv ResponseWriter.fresh ⟨go "POST", ⟨[], some (go "unexpected EOF")⟩⟩)
        = ⟨⟨some 400, go "Error reading request body\n"⟩, [Effect.readRequestBody]⟩ := by
  decide

/-- C10: `Handler` keeps nothing between requests.  (1) In a sequence of
requests served by one process, the outcome of a request is
`Handler` applied to that request alone, whatever was served before or
after.  (2) The outcome depends on the surroundings only through the value of
`TELEGRAM_BOT_TOKEN` and the remote reply to the outbound calls the request
makes.  (3) A request with a message of non-empty text served twice gives two
equal outcomes, each with exactly one outbound call, the same in both: nothing
is deduplicated. -/
theorem Handler_stateless (env : Env) (r : Request) :
    (∀ before after : List Request,
      (serveAll env (before ++ r :: after)).get? before.length
        = some (Handler env ResponseWriter.fresh r))
    ∧ (∀ env2 : Env,
        env2.lookupEnv "TELEGRAM_BOT_TOKEN" = env.lookupEnv "TELEGRAM_BOT_TOKEN" →
        (∀ req ∈ posts (Handler env ResponseWriter.fresh r).effects,
          env2.post req = env.post req) →
        Handler env2 ResponseWriter.fresh r = Handler env ResponseWriter.fresh r)
    ∧ (∀ (update : TelegramUpdate) (message : Message),
        r.Method = go "POST" → env.Getenv "TELEGRAM_BOT_TOKEN" ≠ [] → r.Body.err = none →
        jsonUnmarshal r.Body.data = some update → update.Message = some message →
        message.Text ≠ [] →
        serveAll env [r, r]
          = [Handler env ResponseWriter.fresh r, Handler env ResponseWriter.fresh r]
        ∧ (serveAll env [r, r]).map (fun o => posts o.effects)
          = [[sendMessageRequest (env.Getenv "TELEGRAM_BOT_TOKEN") message.Chat.ID replyText],
             [sendMessageRequest (env.Getenv "TELEGRAM_BOT_TOKEN") message.Chat.ID
               replyText]]) := by
  refine ⟨?_, ?_, ?_⟩
  · intro before after
    rw [serveAll_append, List.get?_eq_getElem?,
      List.getElem?_append_right (by rw [serveAll_length])]
    simp [serveAll_length, serveAll]
  · intro env2 htok hpost
    have hg : env2.Getenv "TELEGRAM_BOT_TOKEN" = env.Getenv "TELEGRAM_BOT_TOKEN" := by
      simp [Env.Getenv, htok]
    by_cases hm : r.Method = go "POST"
    swap
    · simp [Handler, hm]
    by_cases ht : env.Getenv "TELEGRAM_BOT_TOKEN" = []
    · simp [Handler, hm, ht, hg]
    cases hr : r.Body.err with
    | some e => simp [Handler, hm, ht, hg, hr]
    | none =>
      cases hj : jsonUnmarshal r.Body.data with
      | none => simp [Handler, hm, ht, hg, hr, hj]
      | some update =>
        cases hu : update.Message with
        | none => simp [Handler, hm, ht, hg, hr, hj, hu]
        | some message =>
          by_cases htext : message.Text = []
          · simp [Handler, hm, ht, hg, hr, hj, hu, htext]
          · have h1 := Handler_actionable env r update message hm ht hr hj hu htext
            have h2 := Handler_actionable env2 r update message hm (hg ▸ ht) hr hj hu htext
            rw [h1, h2, hg]
            rw [h1, posts_respond, posts_sendMessage] at hpost
            rw [sendMessage_congr env env2 _ _ _ (hpost _ (List.mem_singleton.mpr rfl))]
  · intro update message hm ht hr hj hu htext
    refine ⟨rfl, ?_⟩
    simp [serveAll, Handler_actionable env r update message hm ht hr hj hu htext,
      posts_respond, posts_sendMessage]

theorem Handler_stateless_witness :
    serveAll sampleEnv [postRequest sampleBody, postRequest sampleBody]
      = [Handler sampleEnv ResponseWriter.fresh (postRequest sampleBody),
         Handler sampleEnv ResponseWriter.fresh (postRequest sampleBody)]
    ∧ (serveAll sampleEnv [postRequest sampleBody, postRequest sampleBody]).map
        (fun o => posts o.effects)
      = [[sendMessageRequest (go "T") 555 replyText],
         [sendMessageRequest (go "T") 555 replyText]] :=
  (Handler_stateless sampleEnv (postRequest sampleBody)).2.2
    ⟨1, some ⟨1, none, ⟨555, go "private"⟩, go "hi"⟩⟩ ⟨1, none, ⟨555, go "private"⟩, go "hi"⟩
    (by decide) (by decide) (by decide) (by decide) rfl (by decide)

theorem foldsTo_self (n : Nat) : foldsTo n n = true := by
  simp [foldsTo]

theorem equalFold_self (cs : List Char) : equalFold (cs.map GoChar.rune) cs = true := by
  induction cs with
  | nil => rfl
  | cons c cs ih => simp [equalFold, foldsTo_self, ih]

theorem firstIndex_none (p : String → Bool) (names : List String)
    (h : ∀ n ∈ names, p n = false) : firstIndex p names = none := by
  induction names with
  | nil => rfl
  | cons n ns ih =>
    have h1 : p n = false := h n (List.mem_cons_self n ns)
    have h2 : firstIndex p ns = none := ih fun m hm => h m (List.mem_cons_of_mem n hm)
    simp [firstIndex, h1, h2]

/-- A key that matches no field name case-insensitively selects no field. -/
theorem findField_none (names : List String) (k : GoString)
    (h : ∀ n ∈ names, equalFold k n.data = false) : findField names k = none := by
  have hexact : firstIndex (fun n => decide (k = go n)) names = none := by
    apply firstIndex_none
    intro n hn
    have hf := h n hn
    by_cases hk : k = go n
    · rw [hk, go, equalFold_self] at hf
      exact absurd hf (by decide)
    · simp [hk]
  have hfold : firstIndex (fun n => equalFold k n.data) names = none :=
    firstIndex_none _ names h
  simp [findField, hexact, hfold]

theorem findField_unknown (k : GoString) (h : MatchesNoField k) :
    findField updateFields k = none ∧ findField messageFields k = none
    ∧ findField senderFields k = none ∧ findField chatFields k = none := by
  refine ⟨?_, ?_, ?_, ?_⟩ <;> apply findField_none <;> intro n hn <;> apply h n <;>
    simp only [schemaNames, List.mem_append] <;> tauto

/-- Decoding a member list is not changed by added members that the step
function skips, nor by changes of values that the step function does not
see. -/
theorem foldlM_addedMembers {σ : Type} (f : σ → GoString × Json → Option σ)
    (unknown : GoString → Prop) (inner : GoString → Json → Json → Prop)
    (hskip : ∀ cur k v, unknown k → f cur (k, v) = some cur)
    (hinner : ∀ cur k v v2, inner k v v2 → f cur (k, v2) = f cur (k, v))
    (ms ms2 : List (GoString × Json)) (h : AddedMembers unknown inner ms ms2) :
    ∀ cur, ms2.foldlM f cur = ms.foldlM f cur := by
  induction h with
  | nil => intro cur; rfl
  | keep k v v2 ms ms2 hin _ ih =>
    intro cur
    simp only [List.foldlM_cons, hinner cur k v v2 hin]
    cases f cur (k, v) with
    | none => rfl
    | some next => exact ih next
  | add k v ms ms2 hun _ ih =>
    intro cur
    simp only [List.foldlM_cons, hskip cur k v hun]
    exact ih cur

theorem decodeSender_added (cur : Option Sender) (v v2 : Json)
    (h : AddedToObject MatchesNoField leafInner v v2) :
    decodeSender cur v2 = decodeSender cur v := by
  obtain ⟨ms, ms2, rfl, rfl, hms⟩ := h
  have key := foldlM_addedMembers decodeSenderMember MatchesNoField leafInner
    (fun c k v hk => by simp [decodeSenderMember, (findField_unknown k hk).2.2.1])
    (fun c k v v2 hv => by rw [show v2 = v from hv]) ms ms2 hms
  simp only [decodeSender, key]

theorem decodeChat_added (cur : Chat) (v v2 : Json)
    (h : AddedToObject MatchesNoField leafInner v v2) :
    decodeChat cur v2 = decodeChat cur v := by
  obtain ⟨ms, ms2, rfl, rfl, hms⟩ := h
  have key := foldlM_addedMembers decodeChatMember MatchesNoField leafInner
    (fun c k v hk => by simp [decodeChatMember, (findField_unknown k hk).2.2.2])
    (fun c k v v2 hv => by rw [show v2 = v from hv]) ms ms2 hms
  simp only [decodeChat, key]

theorem decodeMessage_added (cur : Option Message) (v v2 : Json)
    (h : AddedToObject MatchesNoField (messageInner MatchesNoField) v v2) :
    decodeMessage cur v2 = decodeMessage cur v := by
  obtain ⟨ms, ms2, rfl, rfl, hms⟩ := h
  have key := foldlM_addedMembers decodeMessageMember MatchesNoField
    (messageInner MatchesNoField)
    (fun c k v hk => by simp [decodeMessageMember, (findField_unknown k hk).2.1])
    (fun c k v v2 hv => by
      rcases hv with hv | ⟨hk | hk, hv⟩
      · rw [hv]
      · have hf : findField messageFields (go "from") = some 1 := by decide
        simp only [decodeMessageMember, hk, hf, decodeSender_added c.From v v2 hv]
      · have hf : findField messageFields (go "chat") = some 2 := by decide
        simp only [decodeMessageMember, hk, hf, decodeChat_added c.Chat v v2 hv])
    ms ms2 hms
  simp only [decodeMessage, key]

theorem decodeUpdate_added (cur : TelegramUpdate) (v v2 : Json)
    (h : AddedFields MatchesNoField v v2) :
    decodeUpdate cur v2 = decodeUpdate cur v := by
  obtain ⟨ms, ms2, rfl, rfl, hms⟩ := h
  have key := foldlM_addedMembers decodeUpdateMember MatchesNoField
    (updateInner MatchesNoField)
    (fun c k v hk => by simp [decodeUpdateMember, (findField_unknown k hk).1])
    (fun c k v v2 hv => by
      rcases hv with hv | ⟨hk, hv⟩
      · rw [hv]
      · have hf : findField updateFields (go "message") = some 1 := by decide
        simp only [decodeUpdateMember, hk, hf, decodeMessage_added c.Message v v2 hv])
    ms ms2 hms
  simp only [decodeUpdate, key]

/-- The handler sees the body only through `json.Unmarshal`. -/
theorem Handler_body_congr (env : Env) (w : ResponseWriter) (method : GoString)
    (err : Option GoString) (b b2 : GoString) (h : jsonUnmarshal b2 = jsonUnmarshal b) :
    Handler env w ⟨method, ⟨b2, err⟩⟩ = Handler env w ⟨method, ⟨b, err⟩⟩ := by
  simp only [Handler, h]

/-- C8, as stated, fails: the field `Message` is none of the names of the
schema, yet `encoding/json` matches field names case-insensitively and decodes
it into the field `message`.  Adding it to the empty object turns a request that
is acknowledged without an outbound call into one that sends the reply. -/
theorem added_field_Message_changes_decoding :
    parseJSON (go "\x7b\x7d") = some (Json.obj [])
    ∧ parseJSON (go "\x7b\"Message\":\x7b\"chat\":\x7b\"id\":5\x7d,\"text\":\"hi\"\x7d\x7d")
      = some (Json.obj [(go "Message", Json.obj [(go "chat", Json.obj [(go "id", Json.num ['5'])]),
          (go "text", Json.str (go "hi"))])])
    ∧ AddedFields NotInSchema (Json.obj [])
        (Json.obj [(go "Message", Json.obj [(go "chat", Json.obj [(go "id", Json.num ['5'])]),
          (go "text", Json.str (go "hi"))])])
    ∧ jsonUnmarshal (go "\x7b\x7d") = some ⟨0, none⟩
    ∧ jsonUnmarshal
        (go "\x7b\"Message\":\x7b\"chat\":\x7b\"id\":5\x7d,\"text\":\"hi\"\x7d\x7d")
      = some ⟨0, some ⟨0, none, ⟨5, []⟩, go "hi"⟩⟩
    ∧ Handler sampleEnv ResponseWriter.fresh (postRequest (go "\x7b\x7d"))
      = ⟨⟨some 200, []⟩, [Effect.readRequestBody, Effect.closeRequestBody]⟩
    ∧ Handler sampleEnv ResponseWriter.fresh (postRequest
        (go "\x7b\"Message\":\x7b\"chat\":\x7b\"id\":5\x7d,\"text\":\"hi\"\x7d\x7d"))
      = ⟨⟨some 200, go "OK"⟩,
          [Effect.readRequestBody, Effect.post (sendMessageRequest (go "T") 5 replyText),
            Effect.closeResponseBody, Effect.closeRequestBody]⟩ := by
  refine ⟨rfl, rfl, ?_, by decide, by decide, by decide, by decide⟩
  refine ⟨[], _, rfl, rfl, ?_⟩
  refine AddedMembers.add _ _ _ _ ?_ AddedMembers.nil
  unfold NotInSchema
  decide

/-- C8, amended: let `b` and `b2` be bodies that the JSON scanner accepts, `b2`
being the object `b` with fields added at the top level, inside `message`,
inside `message.from` or inside `message.chat`, where the name of every added
field matches no field name of the schema under the case-insensitive comparison
of `encoding/json`.  Then `json.Unmarshal` gives the same result for both (the
same `TelegramUpdate`, or an error for both), and `Handler` gives the same
response and performs the same effects, outbound call included. -/
theorem unknown_fields_ignored (b b2 : GoString) (j j2 : Json)
    (hb : parseJSON b = some j) (hb2 : parseJSON b2 = some j2)
    (hadd : AddedFields MatchesNoField j j2) :
    jsonUnmarshal b2 = jsonUnmarshal b
    ∧ ∀ (env : Env) (w : ResponseWriter) (method : GoString) (err : Option GoString),
        Handler env w ⟨method, ⟨b2, err⟩⟩ = Handler env w ⟨method, ⟨b, err⟩⟩ := by
  have h : jsonUnmarshal b2 = jsonUnmarshal b := by
    simp only [jsonUnmarshal, hb, hb2, Option.some_bind, Option.bind_eq_bind]
    exact decodeUpdate_added _ j j2 hadd
  exact ⟨h, fun env w method err => Handler_body_congr env w method err b b2 h⟩

theorem unknown_fields_ignored_witness :
    jsonUnmarshal (go "\x7b\"edited\":true,\"message\":\x7b\"from\":\x7b\"id\":9,\"is_bot\":false\x7d,\"chat\":\x7b\"id\":5,\"title\":\"x\"\x7d,\"date\":0,\"text\":\"hi\"\x7d\x7d")
      = jsonUnmarshal (go "\x7b\"message\":\x7b\"from\":\x7b\"id\":9\x7d,\"chat\":\x7b\"id\":5\x7d,\"text\":\"hi\"\x7d\x7d")
    ∧ jsonUnmarshal (go "\x7b\"message\":\x7b\"from\":\x7b\"id\":9\x7d,\"chat\":\x7b\"id\":5\x7d,\"text\":\"hi\"\x7d\x7d")
      = some ⟨0, some ⟨0, some ⟨9, [], []⟩, ⟨5, []⟩, go "hi"⟩⟩ :=
  ⟨(unknown_fields_ignored
      (go "\x7b\"message\":\x7b\"from\":\x7b\"id\":9\x7d,\"chat\":\x7b\"id\":5\x7d,\"text\":\"hi\"\x7d\x7d")
      (go "\x7b\"edited\":true,\"message\":\x7b\"from\":\x7b\"id\":9,\"is_bot\":false\x7d,\"chat\":\x7b\"id\":5,\"title\":\"x\"\x7d,\"date\":0,\"text\":\"hi\"\x7d\x7d")
      (Json.obj [(go "message", Json.obj [(go "from", Json.obj [(go "id", Json.num ['9'])]),
        (go "chat", Json.obj [(go "id", Json.num ['5'])]), (go "text", Json.str (go "hi"))])])
      (Json.obj [(go "edited", Json.bool true),
        (go "message", Json.obj [
          (go "from", Json.obj [(go "id", Json.num ['9']), (go "is_bot", Json.bool false)]),
          (go "chat", Json.obj [(go "id", Json.num ['5']), (go "title", Json.str (go "x"))]),
          (go "date", Json.num ['0']), (go "text", Json.str (go "hi"))])])
      rfl rfl
      ⟨_, _, rfl, rfl,
        AddedMembers.add _ _ _ _ (by unfold MatchesNoField; decide)
          (AddedMembers.keep _ _ _ _ _
            (Or.inr ⟨rfl, _, _, rfl, rfl,
              AddedMembers.keep _ _ _ _ _
                (Or.inr ⟨Or.inl rfl, _, _, rfl, rfl,
                  AddedMembers.keep _ _ _ _ _ rfl
                    (AddedMembers.add _ _ _ _ (by unfold MatchesNoField; decide)
                      AddedMembers.nil)⟩)
                (AddedMembers.keep _ _ _ _ _
                  (Or.inr ⟨Or.inr rfl, _, _, rfl, rfl,
                    AddedMembers.keep _ _ _ _ _ rfl
                      (AddedMembers.add _ _ _ _ (by unfold MatchesNoField; decide)
                        AddedMembers.nil)⟩)
                  (AddedMembers.add _ _ _ _ (by unfold MatchesNoField; decide)
                    (AddedMembers.keep _ _ _ _ _ (Or.inl rfl) AddedMembers.nil)))⟩)
            AddedMembers.nil)⟩).1,
    by decide⟩

theorem char_of_toNat (c : Char) (n : Nat) (h : c.toNat = n) : c = Char.ofNat n := by
  rw [← h, Char.ofNat_toNat]

/-- The scanner reads back what `appendString` wrote for one code point. -/
theorem scan_appendStringChar (c : Char) (acc : GoString) (fs : List Frame) :
    List.foldlM step ⟨Mode.inString acc none StrState.plain, fs⟩
        ((appendStringChar (GoChar.rune c)).map GoChar.rune)
      = some ⟨Mode.inString (acc ++ [GoChar.rune c]) none StrState.plain, fs⟩ := by
  by_cases h128 : c.toNat < 128
  · generalize hn : c.toNat = n at h128
    interval_cases n <;> (obtain rfl := char_of_toNat c _ hn; rfl)
  · by_cases hsep : c.toNat = 0x2028 ∨ c.toNat = 0x2029
    · rcases hsep with h | h <;> (obtain rfl := char_of_toNat c _ h; rfl)
    · have h1 : c.toNat ≠ 34 := by omega
      have h2 : c.toNat ≠ 92 := by omega
      have h4 : ¬ c.toNat < 32 := by omega
      simp [appendStringChar, h128, hsep, step, stepString, h1, h2, h4, flush]

/-- The scanner reads back the escaped content of a valid UTF-8 string. -/
theorem scan_appendString (t : GoString) (ht : ValidUTF8 t) (fs : List Frame) :
    ∀ acc, List.foldlM step ⟨Mode.inString acc none StrState.plain, fs⟩
        ((t.flatMap appendStringChar).map GoChar.rune)
      = some ⟨Mode.inString (acc ++ t) none StrState.plain, fs⟩ := by
  induction t with
  | nil => intro acc; simp
  | cons u t ih =>
    intro acc
    obtain ⟨c, rfl⟩ := ht u (List.mem_cons_self u t)
    have ht2 : ValidUTF8 t := fun x hx => ht x (List.mem_cons_of_mem _ hx)
    rw [List.flatMap_cons, List.map_append, List.foldlM_append, scan_appendStringChar]
    simp [ih ht2]

theorem digit_toNat (k : Nat) (h : k < 10) : (Char.ofNat (48 + k)).toNat = 48 + k := by
  interval_cases k <;> decide

theorem digitsAux_zero (fuel : Nat) : digitsAux fuel 0 = [] := by
  cases fuel <;> simp [digitsAux]

theorem parseDigits_append (l1 l2 : List Char) :
    ∀ acc, parseDigits acc (l1 ++ l2) = (parseDigits acc l1).bind fun a => parseDigits a l2 := by
  induction l1 with
  | nil => intro acc; rfl
  | cons c cs ih =>
    intro acc
    by_cases h : isDigit c.toNat = true
    · simp [parseDigits, h, ih]
    · simp [parseDigits, h]

theorem parseDigits_digitsAux (fuel : Nat) :
    ∀ n, n ≤ fuel → parseDigits 0 (digitsAux fuel n) = some n := by
  induction fuel with
  | zero =>
    intro n hn
    have h0 : n = 0 := by omega
    subst h0
    rfl
  | succ fuel ih =>
    intro n hn
    by_cases h0 : n = 0
    · subst h0; rfl
    · have hd : n / 10 ≤ fuel := by omega
      have hlt : n % 10 < 10 := Nat.mod_lt n (by decide)
      have hdig : isDigit (48 + n % 10) = true := by
        simp only [isDigit, Bool.and_eq_true, decide_eq_true_eq]
        omega
      simp only [digitsAux, h0, if_false, parseDigits_append, ih _ hd, Option.some_bind,
        parseDigits, digit_toNat _ hlt, hdig, if_true]
      congr 1
      omega

/-- The digits of a positive number start with a digit from 1 to 9. -/
theorem digitsAux_shape (fuel : Nat) :
    ∀ n, n ≤ fuel → 0 < n → ∃ d ds, digitsAux fuel n = d :: ds
      ∧ 49 ≤ d.toNat ∧ d.toNat ≤ 57 ∧ ∀ x ∈ ds, 48 ≤ x.toNat ∧ x.toNat ≤ 57 := by
  induction fuel with
  | zero => intro n hn hpos; omega
  | succ fuel ih =>
    intro n hn hpos
    have h0 : n ≠ 0 := by omega
    have hlt : n % 10 < 10 := Nat.mod_lt n (by decide)
    by_cases hq : n / 10 = 0
    · refine ⟨Char.ofNat (48 + n % 10), [], ?_, ?_, ?_, ?_⟩
      · simp [digitsAux, h0, hq, digitsAux_zero]
      · rw [digit_toNat _ hlt]; omega
      · rw [digit_toNat _ hlt]; omega
      · intro x hx; cases hx
    · obtain ⟨d, ds, he, h1, h2, h3⟩ := ih (n / 10) (by omega) (by omega)
      refine ⟨d, ds ++ [Char.ofNat (48 + n % 10)], ?_, h1, h2, ?_⟩
      · simp [digitsAux, h0, he]
      · intro x hx
        rcases List.mem_append.mp hx with hx | hx
        · exact h3 x hx
        · rw [List.mem_singleton.mp hx, digit_toNat _ hlt]; omega

theorem parseInt_formatInt (n : Int) (h1 : -2 ^ 63 ≤ n) (h2 : n < 2 ^ 63) :
    parseInt (formatInt n) = some n := by
  by_cases hneg : n < 0
  · have hpos : 0 < n.natAbs := by omega
    obtain ⟨d, ds, he, _, _, _⟩ := digitsAux_shape n.natAbs n.natAbs (le_refl _) hpos
    have hnd : natDigits n.natAbs = d :: ds := by
      simp [natDigits, Nat.pos_iff_ne_zero.mp hpos, he]
    have hp : parseDigits 0 (d :: ds) = some n.natAbs := by
      rw [← he]; exact parseDigits_digitsAux _ _ (le_refl _)
    have hle : n.natAbs ≤ 2 ^ 63 := by omega
    have hm : ('-' : Char).toNat = 45 := by decide
    simp only [formatInt, hneg, if_true, parseInt, hm, hnd, hp, Option.some_bind, hle]
    congr 1
    omega
  · by_cases hz : n = 0
    · subst hz; decide
    · have hpos : 0 < n.natAbs := by omega
      obtain ⟨d, ds, he, hd1, hd2, _⟩ := digitsAux_shape n.natAbs n.natAbs (le_refl _) hpos
      have hnd : natDigits n.natAbs = d :: ds := by
        simp [natDigits, Nat.pos_iff_ne_zero.mp hpos, he]
      have hp : parseDigits 0 (d :: ds) = some n.natAbs := by
        rw [← he]; exact parseDigits_digitsAux _ _ (le_refl _)
      have hlt : n.natAbs < 2 ^ 63 := by omega
      have h45 : d.toNat ≠ 45 := by omega
      have h43 : d.toNat ≠ 43 := by omega
      simp only [formatInt, hneg, if_false, parseInt, hnd, h45, h43, hp, Option.some_bind, hlt,
        if_true]
      congr 1
      omega

/-- A scan of a prefix that succeeds continues on the rest. -/
theorem scan_append (s s1 : Scanner) (xs ys : GoString)
    (h : List.foldlM step s xs = some s1) :
    List.foldlM step s (xs ++ ys) = List.foldlM step s1 ys := by
  rw [List.foldlM_append, h]
  rfl

/-- The scanner stays in `state1` over further digits. -/
theorem scan_digits (ds : List Char) (hds : ∀ x ∈ ds, 48 ≤ x.toNat ∧ x.toNat ≤ 57)
    (fs : List Frame) :
    ∀ lit, List.foldlM step ⟨Mode.inNumber NumState.int lit, fs⟩ (ds.map GoChar.rune)
      = some ⟨Mode.inNumber NumState.int (lit ++ ds), fs⟩ := by
  induction ds with
  | nil => intro lit; simp
  | cons d ds ih =>
    intro lit
    have hd := hds d (List.mem_cons_self d ds)
    have hdig : isDigit d.toNat = true := by
      simp only [isDigit, Bool.and_eq_true, decide_eq_true_eq]; omega
    have hstep : step ⟨Mode.inNumber NumState.int lit, fs⟩ (GoChar.rune d)
        = some ⟨Mode.inNumber NumState.int (lit ++ [d]), fs⟩ := by
      simp [step, stepNumber, numNext, hdig]
    rw [List.map_cons, List.foldlM_cons, hstep]
    simp [ih fun x hx => hds x (List.mem_cons_of_mem _ hx)]

/-- After the literal of an integer the scanner is in `state0` or `state1`
with the literal read. -/
theorem scan_formatInt (n : Int) (fs : List Frame) :
    ∃ st, (st = NumState.zero ∨ st = NumState.int)
      ∧ List.foldlM step ⟨Mode.beginValue false, fs⟩ ((formatInt n).map GoChar.rune)
        = some ⟨Mode.inNumber st (formatInt n), fs⟩ := by
  have first : ∀ d : Char, 49 ≤ d.toNat → d.toNat ≤ 57 →
      step ⟨Mode.beginValue false, fs⟩ (GoChar.rune d)
        = some ⟨Mode.inNumber NumState.int [d], fs⟩ := by
    intro d h1 h2
    have e1 : isSpace d.toNat = false := by
      simp only [isSpace, Bool.or_eq_false_iff, decide_eq_false_iff_not]; omega
    have e2 : d.toNat ≠ 123 := by omega
    have e3 : d.toNat ≠ 91 := by omega
    have e4 : d.toNat ≠ 34 := by omega
    have e5 : d.toNat ≠ 45 := by omega
    have e6 : d.toNat ≠ 48 := by omega
    simp [step, stepBeginValue, e1, e2, e3, e4, e5, e6, h1, h2]
  have afterNeg : ∀ d : Char, 49 ≤ d.toNat → d.toNat ≤ 57 →
      step ⟨Mode.inNumber NumState.neg ['-'], fs⟩ (GoChar.rune d)
        = some ⟨Mode.inNumber NumState.int ['-', d], fs⟩ := by
    intro d h1 h2
    have e6 : d.toNat ≠ 48 := by omega
    simp [step, stepNumber, numNext, e6, h1, h2]
  by_cases hz : n = 0
  · subst hz
    exact ⟨NumState.zero, Or.inl rfl, rfl⟩
  · have hpos : 0 < n.natAbs := by omega
    obtain ⟨d, ds, he, hd1, hd2, hds⟩ := digitsAux_shape n.natAbs n.natAbs (le_refl _) hpos
    have hnd : natDigits n.natAbs = d :: ds := by
      simp [natDigits, Nat.pos_iff_ne_zero.mp hpos, he]
    refine ⟨NumState.int, Or.inr rfl, ?_⟩
    by_cases hneg : n < 0
    · have hminus : step ⟨Mode.beginValue false, fs⟩ (GoChar.rune '-')
          = some ⟨Mode.inNumber NumState.neg ['-'], fs⟩ := rfl
      simp only [formatInt, hneg, if_true, hnd, List.map_cons, List.foldlM_cons, hminus,
        afterNeg d hd1 hd2, scan_digits ds hds fs, Option.bind_eq_bind, Option.some_bind,
        List.cons_append, List.nil_append]
    · simp only [formatInt, hneg, if_false, hnd, List.map_cons, List.foldlM_cons,
        first d hd1 hd2, scan_digits ds hds fs, Option.bind_eq_bind, Option.some_bind,
        List.cons_append, List.nil_append]

/-- The body that `json.Marshal` writes for a response with a valid UTF-8 text
is read back by the scanner as the object of its two fields. -/
theorem parseJSON_encodeResponse (n : Int) (t : GoString) (ht : ValidUTF8 t) :
    parseJSON (encodeResponse ⟨n, t⟩)
      = some (Json.obj [(go "chat_id", Json.num (formatInt n)), (go "text", Json.str t)]) := by
  have s1 : List.foldlM step scanStart (go "\x7b\"chat_id\":")
      = some ⟨Mode.beginValue false, [Frame.objVal [] (go "chat_id")]⟩ := rfl
  obtain ⟨st, hst, s2⟩ := scan_formatInt n [Frame.objVal [] (go "chat_id")]
  have s3 : List.foldlM step
      ⟨Mode.inNumber st (formatInt n), [Frame.objVal [] (go "chat_id")]⟩ (go ",\"text\":")
      = some ⟨Mode.beginValue false,
          [Frame.objVal [(go "chat_id", Json.num (formatInt n))] (go "text")]⟩ := by
    rcases hst with rfl | rfl <;> rfl
  have s4 : step ⟨Mode.beginValue false,
        [Frame.objVal [(go "chat_id", Json.num (formatInt n))] (go "text")]⟩
        (GoChar.rune (Char.ofNat 34))
      = some ⟨Mode.inString [] none StrState.plain,
          [Frame.objVal [(go "chat_id", Json.num (formatInt n))] (go "text")]⟩ := rfl
  have s5 := scan_appendString t ht
    [Frame.objVal [(go "chat_id", Json.num (formatInt n))] (go "text")] []
  have s6 : List.foldlM step ⟨Mode.inString t none StrState.plain,
        [Frame.objVal [(go "chat_id", Json.num (formatInt n))] (go "text")]⟩
        (GoChar.rune (Char.ofNat 34) :: go "\x7d")
      = some ⟨Mode.endTop (Json.obj [(go "chat_id", Json.num (formatInt n)),
          (go "text", Json.str t)]), []⟩ := rfl
  have shape : encodeResponse ⟨n, t⟩
      = go "\x7b\"chat_id\":" ++ ((formatInt n).map GoChar.rune ++ (go ",\"text\":"
        ++ (GoChar.rune (Char.ofNat 34) :: ((t.flatMap appendStringChar).map GoChar.rune
        ++ (GoChar.rune (Char.ofNat 34) :: go "\x7d"))))) := by
    simp [encodeResponse, appendString]
  rw [List.nil_append] at s5
  rw [parseJSON, shape, scan_append _ _ _ _ s1, scan_append _ _ _ _ s2, scan_append _ _ _ _ s3,
    List.foldlM_cons, s4, Option.bind_eq_bind, Option.some_bind, scan_append _ _ _ _ s5, s6]
  rfl

theorem validUTF8_go (s : String) : ValidUTF8 (go s) := by
  intro u hu
  obtain ⟨c, _, hc⟩ := List.mem_map.mp hu
  exact ⟨c, hc.symm⟩

/-- C7, as stated, fails for a text that is not valid UTF-8: `json.Marshal`
writes the escape of U+FFFD for the byte `0xff`, so decoding the body of the
outbound request gives the text U+FFFD and not the text that was passed. -/
theorem sendMessage_invalid_utf8_not_read_back :
    posts (sendMessage sampleEnv (go "T") 1 [GoChar.raw 255]).2
      = [⟨go "https://api.telegram.org/botT/sendMessage", go "application/json",
          go "\x7b\"chat_id\":1,\"text\":\"\\ufffd\"\x7d"⟩]
    ∧ parseJSON (go "\x7b\"chat_id\":1,\"text\":\"\\ufffd\"\x7d")
      = some (Json.obj [(go "chat_id", Json.num ['1']),
          (go "text", Json.str [GoChar.rune (Char.ofNat 0xFFFD)])])
    ∧ [GoChar.rune (Char.ofNat 0xFFFD)] ≠ [GoChar.raw 255] := by
  refine ⟨by decide, rfl, by decide⟩

/-- C7, amended: for every credential `c`, every chat id `n` of type `int64`
and every text `t` that is valid UTF-8, `sendMessage(c, n, t)` calls
`http.Post` exactly once, with the URL
`https://api.telegram.org/bot` ++ `c` ++ `/sendMessage`, the content type
`application/json` and a body that the JSON scanner reads as the object with
exactly the two members `chat_id`, a number literal that `strconv.ParseInt`
converts to `n`, and `text`, the string `t`. -/
theorem sendMessage_request (env : Env) (c : GoString) (n : Int) (t : GoString)
    (h1 : -2 ^ 63 ≤ n) (h2 : n < 2 ^ 63) (ht : ValidUTF8 t) :
    posts (sendMessage env c n t).2
      = [⟨go "https://api.telegram.org/bot" ++ c ++ go "/sendMessage", go "application/json",
          encodeResponse ⟨n, t⟩⟩]
    ∧ parseJSON (encodeResponse ⟨n, t⟩)
      = some (Json.obj [(go "chat_id", Json.num (formatInt n)), (go "text", Json.str t)])
    ∧ parseInt (formatInt n) = some n :=
  ⟨posts_sendMessage env c n t, parseJSON_encodeResponse n t ht, parseInt_formatInt n h1 h2⟩

theorem sendMessage_request_witness :
    posts (sendMessage sampleEnv (go "T") (-1001234567890) (go "Hello, I\x27m Vercel Bot!")).2
      = [⟨go "https://api.telegram.org/botT/sendMessage", go "application/json",
          go "\x7b\"chat_id\":-1001234567890,\"text\":\"Hello, I\x27m Vercel Bot!\"\x7d"⟩]
    ∧ parseJSON
        (go "\x7b\"chat_id\":-1001234567890,\"text\":\"Hello, I\x27m Vercel Bot!\"\x7d")
      = some (Json.obj [(go "chat_id", Json.num "-1001234567890".data),
          (go "text", Json.str (go "Hello, I\x27m Vercel Bot!"))])
    ∧ parseInt "-1001234567890".data = some (-1001234567890) :=
  sendMessage_request sampleEnv (go "T") (-1001234567890) (go "Hello, I\x27m Vercel Bot!")
    (by decide) (by decide) (validUTF8_go _)

end Webhook
